import Mathlib

/-
Verification of the DICOM viewer metadata pipeline.

This file gives a shallow embedding of the metadata-handling code of the
DicomViewer repository:

* the 20-field `DicomMetadata` record built in
  `DicomViewerComponent.extractDicomMetadata` and initialised in
  `fetchMetadataFromApi`;
* the merge loop of `extractDicomMetadata` (the `Object.keys(...).forEach`
  over the freshly extracted record);
* the tag resolver (`getTagValue` and the local `getTag` closure);
* `formatDate`;
* the numeric normalisation `parseInt(raw || '0')` / `parseFloat(raw || '0')`
  used for rows, columns, windowCenter and windowWidth;
* the scheduling performed by `ngOnChanges` (API fetch, then a
  `setTimeout(..., 200)` for the binary load), and the API response handler
  of `fetchMetadataFromApi` as a step function on the component state.

JavaScript runtime values that can appear in a metadata field are modelled
by the inductive `JsVal`; numbers are modelled as mathematical integers
(`Int`) plus an explicit `nan` constructor, since the merge guard only ever
compares them against the literal `0`.
-/

/-- A JavaScript value as it can appear in a metadata field or in a DICOM
element's `value` slot: a string, a (finite) number, `NaN`, `null`,
`undefined`, or an array of strings (multi-valued DICOM elements). -/
inductive JsVal where
  | str (s : String)
  | num (n : Int)
  | nan
  | jsNull
  | undef
  | arr (xs : List String)
deriving DecidableEq

/-- The 20 keys of the `extractedMetadata` object literal built in
`extractDicomMetadata` (which are also exactly the fields of the
`DicomMetadata` interface and of the empty record initialised in
`fetchMetadataFromApi`). -/
inductive FieldName where
  | patientName
  | patientId
  | patientBirthDate
  | patientSex
  | modality
  | rows
  | columns
  | imageType
  | studyId
  | studyInstanceUid
  | studyDate
  | studyTime
  | seriesInstanceUid
  | seriesNumber
  | seriesDescription
  | bodyPart
  | imageId
  | instanceNumber
  | windowCenter
  | windowWidth
deriving DecidableEq, Fintype

/-- The `DicomMetadata` record (interface `DicomMetadata` of
`dicom-viewer.component.ts`): every field holds a JavaScript value. -/
structure DicomMetadata where
  patientName : JsVal
  patientId : JsVal
  patientBirthDate : JsVal
  patientSex : JsVal
  modality : JsVal
  rows : JsVal
  columns : JsVal
  imageType : JsVal
  studyId : JsVal
  studyInstanceUid : JsVal
  studyDate : JsVal
  studyTime : JsVal
  seriesInstanceUid : JsVal
  seriesNumber : JsVal
  seriesDescription : JsVal
  bodyPart : JsVal
  imageId : JsVal
  instanceNumber : JsVal
  windowCenter : JsVal
  windowWidth : JsVal
deriving DecidableEq

/-- Field projection, used to state per-field properties of records. -/
def DicomMetadata.get (m : DicomMetadata) : FieldName → JsVal
  | .patientName => m.patientName
  | .patientId => m.patientId
  | .patientBirthDate => m.patientBirthDate
  | .patientSex => m.patientSex
  | .modality => m.modality
  | .rows => m.rows
  | .columns => m.columns
  | .imageType => m.imageType
  | .studyId => m.studyId
  | .studyInstanceUid => m.studyInstanceUid
  | .studyDate => m.studyDate
  | .studyTime => m.studyTime
  | .seriesInstanceUid => m.seriesInstanceUid
  | .seriesNumber => m.seriesNumber
  | .seriesDescription => m.seriesDescription
  | .bodyPart => m.bodyPart
  | .imageId => m.imageId
  | .instanceNumber => m.instanceNumber
  | .windowCenter => m.windowCenter
  | .windowWidth => m.windowWidth

/-- Field update, used to model the assignment
`(this.dicomMetadata as any)[field.target] = ...` in `fetchMetadataFromApi`. -/
def DicomMetadata.set (m : DicomMetadata) (f : FieldName) (v : JsVal) : DicomMetadata :=
  match f with
  | .patientName => { m with patientName := v }
  | .patientId => { m with patientId := v }
  | .patientBirthDate => { m with patientBirthDate := v }
  | .patientSex => { m with patientSex := v }
  | .modality => { m with modality := v }
  | .rows => { m with rows := v }
  | .columns => { m with columns := v }
  | .imageType => { m with imageType := v }
  | .studyId => { m with studyId := v }
  | .studyInstanceUid => { m with studyInstanceUid := v }
  | .studyDate => { m with studyDate := v }
  | .studyTime => { m with studyTime := v }
  | .seriesInstanceUid => { m with seriesInstanceUid := v }
  | .seriesNumber => { m with seriesNumber := v }
  | .seriesDescription => { m with seriesDescription := v }
  | .bodyPart => { m with bodyPart := v }
  | .imageId => { m with imageId := v }
  | .instanceNumber => { m with instanceNumber := v }
  | .windowCenter => { m with windowCenter := v }
  | .windowWidth => { m with windowWidth := v }

/-- The guard of the merge loop in `extractDicomMetadata`
(lines "Only use non-empty values from the DICOM file"):

`newValue !== null && newValue !== undefined && newValue !== '' &&
 newValue !== 0 && newValue !== 'Not available'`.

Note that JavaScript strict inequality against those five constants is
exactly constructor/payload inequality in this model; in particular `NaN`
passes the guard (`NaN !== 0` is true in JavaScript). -/
def keepNew (v : JsVal) : Bool :=
  !(v = JsVal.jsNull) && !(v = JsVal.undef) && !(v = JsVal.str "") &&
    !(v = JsVal.num 0) && !(v = JsVal.str "Not available")

/-- One iteration of the merge loop of `extractDicomMetadata`: the old
(baseline) value is kept unless the new (file-extracted) value passes the
guard, in which case the new value overwrites it
(`mergedMetadata[key] = newValue`). -/
def mergeField (oldV newV : JsVal) : JsVal :=
  if keepNew newV then newV else oldV

/-- The whole merge of `extractDicomMetadata`: start from a copy of the
baseline (`{ ...this.dicomMetadata }`) and run the loop over
`Object.keys(extractedMetadata)`, i.e. over all 20 fields. -/
def mergeMetadata (oldM newM : DicomMetadata) : DicomMetadata where
  patientName := mergeField oldM.patientName newM.patientName
  patientId := mergeField oldM.patientId newM.patientId
  patientBirthDate := mergeField oldM.patientBirthDate newM.patientBirthDate
  patientSex := mergeField oldM.patientSex newM.patientSex
  modality := mergeField oldM.modality newM.modality
  rows := mergeField oldM.rows newM.rows
  columns := mergeField oldM.columns newM.columns
  imageType := mergeField oldM.imageType newM.imageType
  studyId := mergeField oldM.studyId newM.studyId
  studyInstanceUid := mergeField oldM.studyInstanceUid newM.studyInstanceUid
  studyDate := mergeField oldM.studyDate newM.studyDate
  studyTime := mergeField oldM.studyTime newM.studyTime
  seriesInstanceUid := mergeField oldM.seriesInstanceUid newM.seriesInstanceUid
  seriesNumber := mergeField oldM.seriesNumber newM.seriesNumber
  seriesDescription := mergeField oldM.seriesDescription newM.seriesDescription
  bodyPart := mergeField oldM.bodyPart newM.bodyPart
  imageId := mergeField oldM.imageId newM.imageId
  instanceNumber := mergeField oldM.instanceNumber newM.instanceNumber
  windowCenter := mergeField oldM.windowCenter newM.windowCenter
  windowWidth := mergeField oldM.windowWidth newM.windowWidth

/-- The empty record initialised at the start of `fetchMetadataFromApi`:
every string field is `''` and every numeric field is `0`. -/
def emptyMetadata : DicomMetadata where
  patientName := JsVal.str ""
  patientId := JsVal.str ""
  patientBirthDate := JsVal.str ""
  patientSex := JsVal.str ""
  modality := JsVal.str ""
  rows := JsVal.num 0
  columns := JsVal.num 0
  imageType := JsVal.str ""
  studyId := JsVal.str ""
  studyInstanceUid := JsVal.str ""
  studyDate := JsVal.str ""
  studyTime := JsVal.str ""
  seriesInstanceUid := JsVal.str ""
  seriesNumber := JsVal.str ""
  seriesDescription := JsVal.str ""
  bodyPart := JsVal.str ""
  imageId := JsVal.str ""
  instanceNumber := JsVal.str ""
  windowCenter := JsVal.num 0
  windowWidth := JsVal.num 0

theorem DicomMetadata.get_merge (b c : DicomMetadata) (f : FieldName) :
    (mergeMetadata b c).get f = mergeField (b.get f) (c.get f) := by
  cases f <;> rfl

theorem DicomMetadata.ext_of_get {a b : DicomMetadata}
    (h : ∀ f, a.get f = b.get f) : a = b := by
  cases a
  cases b
  simp only [DicomMetadata.mk.injEq]
  exact ⟨h .patientName, h .patientId, h .patientBirthDate, h .patientSex,
    h .modality, h .rows, h .columns, h .imageType, h .studyId,
    h .studyInstanceUid, h .studyDate, h .studyTime, h .seriesInstanceUid,
    h .seriesNumber, h .seriesDescription, h .bodyPart, h .imageId,
    h .instanceNumber, h .windowCenter, h .windowWidth⟩

theorem mergeField_self (v : JsVal) : mergeField v v = v := by
  unfold mergeField
  split <;> rfl

/-- Baseline record for the merge demonstrations: a persisted record whose
`patientName` and `modality` already hold meaningful values. -/
def mergeDemoBaseline : DicomMetadata :=
  { emptyMetadata with
      patientName := JsVal.str "John"
      modality := JsVal.str "MR" }

/-- Candidate record freshly extracted from the file: a new `patientName`,
everything else still empty. -/
def mergeDemoCandidate : DicomMetadata :=
  { emptyMetadata with patientName := JsVal.str "Jane" }

/-- Claim C1 counterexample: the merge loop of `extractDicomMetadata` is not
baseline-precedence ("fill-only"). At a concrete pair where the baseline's
`patientName` is non-empty, the merged record does NOT keep the baseline's
value: the freshly extracted candidate value overwrites it. -/
theorem merge_not_fill_only :
    mergeDemoBaseline.get FieldName.patientName ≠ JsVal.str "" ∧
    (mergeMetadata mergeDemoBaseline mergeDemoCandidate).get FieldName.patientName ≠
      mergeDemoBaseline.get FieldName.patientName := by
  decide

/-- Claim C1 (amended): the merge of `extractDicomMetadata` gives precedence
to the candidate (file-extracted) value: for every field `f`,
`merged[f] = candidate[f]` whenever `candidate[f]` passes the non-empty guard
(not `null`, not `undefined`, not `''`, not `0`, not `'Not available'`), and
`merged[f] = baseline[f]` otherwise. A meaningful baseline value IS
overwritten whenever the candidate value is meaningful. -/
theorem merge_candidate_precedence (b c : DicomMetadata) (f : FieldName) :
    (keepNew (c.get f) = true → (mergeMetadata b c).get f = c.get f) ∧
    (keepNew (c.get f) = false → (mergeMetadata b c).get f = b.get f) := by
  constructor <;> intro h <;> rw [DicomMetadata.get_merge] <;> simp [mergeField, h]

/-- Claim C1 witness: both branches of the amended merge law at concrete
records. -/
theorem merge_candidate_precedence_witness :
    (mergeMetadata mergeDemoBaseline mergeDemoCandidate).get FieldName.patientName =
      mergeDemoCandidate.get FieldName.patientName ∧
    (mergeMetadata mergeDemoBaseline mergeDemoCandidate).get FieldName.modality =
      mergeDemoBaseline.get FieldName.modality :=
  ⟨(merge_candidate_precedence mergeDemoBaseline mergeDemoCandidate FieldName.patientName).1
      (by decide),
   (merge_candidate_precedence mergeDemoBaseline mergeDemoCandidate FieldName.modality).2
      (by decide)⟩

/-- The baseline of the end-to-end scenario quoted by the spec:
`{patientName: '', studyInstanceUid: '1.2.3'}`, rest empty. -/
def specExampleBaseline : DicomMetadata :=
  { emptyMetadata with studyInstanceUid := JsVal.str "1.2.3" }

/-- The candidate of the end-to-end scenario quoted by the spec:
`{patientName: 'Jane Doe', studyInstanceUid: '9.9.9', modality: 'CT'}`,
rest empty. -/
def specExampleCandidate : DicomMetadata :=
  { emptyMetadata with
      patientName := JsVal.str "Jane Doe"
      studyInstanceUid := JsVal.str "9.9.9"
      modality := JsVal.str "CT" }

/-- Claim C2 counterexample: on the spec's own scenario the persisted
non-empty `studyInstanceUid` `'1.2.3'` is NOT preserved: the merge loop
overwrites it with the freshly extracted `'9.9.9'`. -/
theorem uid_overwritten_by_reextraction :
    specExampleBaseline.get FieldName.studyInstanceUid = JsVal.str "1.2.3" ∧
    (mergeMetadata specExampleBaseline specExampleCandidate).get FieldName.studyInstanceUid =
      JsVal.str "9.9.9" ∧
    JsVal.str "9.9.9" ≠ JsVal.str "1.2.3" := by
  decide

/-- Claim C2 (amended): the identifier fields follow the same
candidate-precedence rule as every other field: a persisted
`studyInstanceUid` (resp. `seriesInstanceUid`) survives re-extraction only
when the freshly extracted value is empty; whenever the extracted value is
meaningful it silently overwrites the persisted identifier. -/
theorem uid_preserved_only_when_candidate_empty (b c : DicomMetadata) :
    ((keepNew (c.get FieldName.studyInstanceUid) = false →
        (mergeMetadata b c).get FieldName.studyInstanceUid = b.get FieldName.studyInstanceUid) ∧
      (keepNew (c.get FieldName.studyInstanceUid) = true →
        (mergeMetadata b c).get FieldName.studyInstanceUid = c.get FieldName.studyInstanceUid)) ∧
    ((keepNew (c.get FieldName.seriesInstanceUid) = false →
        (mergeMetadata b c).get FieldName.seriesInstanceUid = b.get FieldName.seriesInstanceUid) ∧
      (keepNew (c.get FieldName.seriesInstanceUid) = true →
        (mergeMetadata b c).get FieldName.seriesInstanceUid = c.get FieldName.seriesInstanceUid)) := by
  refine ⟨⟨?_, ?_⟩, ⟨?_, ?_⟩⟩ <;> intro h <;> rw [DicomMetadata.get_merge] <;>
    simp [mergeField, h]

/-- Claim C2 witness: on the spec's scenario, the study UID is taken from the
candidate (`'9.9.9'`) because the extracted value is meaningful, while the
series UID (extracted empty) is kept from the baseline. -/
theorem uid_preserved_only_when_candidate_empty_witness :
    (mergeMetadata specExampleBaseline specExampleCandidate).get FieldName.studyInstanceUid =
      specExampleCandidate.get FieldName.studyInstanceUid ∧
    (mergeMetadata specExampleBaseline specExampleCandidate).get FieldName.seriesInstanceUid =
      specExampleBaseline.get FieldName.seriesInstanceUid :=
  ⟨(uid_preserved_only_when_candidate_empty specExampleBaseline specExampleCandidate).1.2
      (by decide),
   (uid_preserved_only_when_candidate_empty specExampleBaseline specExampleCandidate).2.1
      (by decide)⟩

/-- A candidate whose only non-sentinel field holds the literal text
`'Not available'` — a value the merge guard always skips. -/
def notAvailCandidate : DicomMetadata :=
  { emptyMetadata with patientName := JsVal.str "Not available" }

/-- Claim C7 counterexample: the first identity law fails for some
candidates. Merging the all-empty baseline with a candidate whose
`patientName` is the string `'Not available'` does NOT return the candidate:
the guard skips that value, so the merged field stays `''`. -/
theorem merge_empty_baseline_not_identity :
    mergeMetadata emptyMetadata notAvailCandidate ≠ notAvailCandidate := by
  decide

/-- Claim C7 (amended): merging any baseline with the all-empty candidate is
the identity (unconditionally), and merging the all-empty baseline with a
candidate returns exactly the candidate provided each candidate field either
passes the non-empty guard or already equals the empty sentinel of that
field (which rules out values such as `null`, `'Not available'`, or a
number `0` in a string field, all of which are skipped by the guard). -/
theorem merge_identity_laws :
    (∀ c : DicomMetadata,
      (∀ f, keepNew (c.get f) = true ∨ c.get f = emptyMetadata.get f) →
        mergeMetadata emptyMetadata c = c) ∧
    (∀ b : DicomMetadata, mergeMetadata b emptyMetadata = b) := by
  constructor
  · intro c h
    apply DicomMetadata.ext_of_get
    intro f
    rw [DicomMetadata.get_merge]
    rcases h f with hk | hs
    · simp [mergeField, hk]
    · rw [hs]
      exact mergeField_self _
  · intro b
    apply DicomMetadata.ext_of_get
    intro f
    rw [DicomMetadata.get_merge]
    have hf : keepNew (emptyMetadata.get f) = false := by cases f <;> decide
    simp [mergeField, hf]

/-- Claim C7 witness: both identity laws at concrete records. -/
theorem merge_identity_laws_witness :
    mergeMetadata emptyMetadata specExampleCandidate = specExampleCandidate ∧
    mergeMetadata specExampleBaseline emptyMetadata = specExampleBaseline :=
  ⟨merge_identity_laws.1 specExampleCandidate (by decide),
   merge_identity_laws.2 specExampleBaseline⟩

/-- Claim C10: a candidate value that is `null`, `undefined`, `''`, `0` or
the exact string `'Not available'` is never written into the merged record:
the corresponding field always keeps the baseline value, even when the
baseline is empty. -/
theorem skipped_values_never_fill (b c : DicomMetadata) (f : FieldName)
    (h : c.get f = JsVal.jsNull ∨ c.get f = JsVal.undef ∨ c.get f = JsVal.str "" ∨
      c.get f = JsVal.num 0 ∨ c.get f = JsVal.str "Not available") :
    (mergeMetadata b c).get f = b.get f := by
  rw [DicomMetadata.get_merge]
  have hf : keepNew (c.get f) = false := by
    rcases h with h | h | h | h | h <;> rw [h] <;> decide
  simp [mergeField, hf]

/-- Claim C10 witness: the `'Not available'` candidate value does not fill
the empty baseline field. -/
theorem skipped_values_never_fill_witness :
    (mergeMetadata emptyMetadata notAvailCandidate).get FieldName.patientName =
      emptyMetadata.get FieldName.patientName :=
  skipped_values_never_fill emptyMetadata notAvailCandidate FieldName.patientName (by decide)

/-- A DICOM element as stored in the parsed element dictionary
(`image.data.elements`): either a well-behaved element whose `.value` slot
holds a JavaScript value, or an element whose `.value` property access
raises — the kind of lookup error the `try`/`catch` of `getTagValue` is
there to swallow. -/
inductive DicomElement where
  | val (v : JsVal)
  | throwing
deriving DecidableEq

/-- The element dictionary handed to `getTagValue`: `none` models a
null/undefined dataset (the `if (!dataset) return ''` branch), `some entries`
an object with the listed properties. -/
abbrev Dataset := Option (List (String × DicomElement))

/-- The element-selection logic of `getTagValue`: first a direct property
access `dataset[tagName]`, then — only if that was not found and the tag
does not already start with `'x'` — the access `dataset['x' + tagName]`. -/
def chooseElement (entries : List (String × DicomElement)) (tagName : String) :
    Option DicomElement :=
  match entries.lookup tagName with
  | some e => some e
  | none =>
    if !tagName.startsWith ("x") then entries.lookup ("x" ++ tagName) else none

/-- The body of `getTagValue` before its `try`/`catch`: reading `.value` of a
throwing element raises (`Except.error ()`); a missing element or an
`undefined`/`null` value gives `''`; an array value is joined with `'\'`;
any other value is converted with `toString()`. -/
def getTagValueE (dataset : Dataset) (tagName : String) : Except Unit String :=
  match dataset with
  | none => Except.ok ""
  | some entries =>
    match chooseElement entries tagName with
    | none => Except.ok ""
    | some DicomElement.throwing => Except.error ()
    | some (DicomElement.val JsVal.undef) => Except.ok ""
    | some (DicomElement.val JsVal.jsNull) => Except.ok ""
    | some (DicomElement.val (JsVal.arr xs)) => Except.ok (String.intercalate ("\\") xs)
    | some (DicomElement.val (JsVal.str s)) => Except.ok s
    | some (DicomElement.val (JsVal.num n)) => Except.ok (toString n)
    | some (DicomElement.val JsVal.nan) => Except.ok ("NaN")

/-- `getTagValue` as the caller sees it: the `catch` turns any raised error
into `''` ("Error reading DICOM tag" branch). -/
def getTagValue (dataset : Dataset) (tagName : String) : String :=
  match getTagValueE dataset tagName with
  | Except.ok s => s
  | Except.error _ => ""

/-- ASCII lower-casing of one character (the fragment of JavaScript
`toLowerCase` exercised by tag keys and API field names). -/
def charToLower (c : Char) : Char :=
  if 'A' ≤ c ∧ c ≤ 'Z' then Char.ofNat (c.toNat + 32) else c

/-- ASCII upper-casing of one character (fragment of `toUpperCase`). -/
def charToUpper (c : Char) : Char :=
  if 'a' ≤ c ∧ c ≤ 'z' then Char.ofNat (c.toNat - 32) else c

/-- `key.toLowerCase()` on ASCII strings. -/
def strToLower (s : String) : String :=
  String.mk (s.toList.map charToLower)

/-- `key.toUpperCase()` on ASCII strings. -/
def strToUpper (s : String) : String :=
  String.mk (s.toList.map charToUpper)

/-- Removal of parentheses, `key.replace(/[\(\)]/g, '')`. -/
def removeParens (key : String) : String :=
  String.mk (key.toList.filter (fun c => !(c = '(') && !(c = ')')))

/-- The five candidate spellings tried by the `getTag` closure of
`extractDicomMetadata`, in source order. -/
def tagFormats (key : String) : List String :=
  [key, "x" ++ key, strToLower key, strToUpper key, removeParens key]

/-- The loop of the `getTag` closure: try each spelling in order, return the
first truthy (non-empty) resolved value, `''` if none resolves. -/
def tryFormats (dataset : Dataset) : List String → String
  | [] => ""
  | f :: rest =>
    let value := getTagValue dataset f
    if value ≠ "" then value else tryFormats dataset rest

/-- The `getTag` closure of `extractDicomMetadata`. -/
def getTag (dataset : Dataset) (key : String) : String :=
  tryFormats dataset (tagFormats key)

/-- Replace every throwing element by one whose value is `undefined`, i.e.
turn every lookup error into a plain "not found for that spelling". -/
def scrubElement : DicomElement → DicomElement
  | DicomElement.throwing => DicomElement.val JsVal.undef
  | DicomElement.val v => DicomElement.val v

/-- `scrubElement` applied throughout a dataset. -/
def scrubDataset : Dataset → Dataset
  | none => none
  | some entries => some (entries.map (fun p => (p.1, scrubElement p.2)))

theorem lookup_scrub (entries : List (String × DicomElement)) (k : String) :
    (entries.map (fun p => (p.1, scrubElement p.2))).lookup k =
      (entries.lookup k).map scrubElement := by
  induction entries with
  | nil => rfl
  | cons p rest ih =>
    obtain ⟨a, b⟩ := p
    cases h : (k == a) with
    | true => simp [List.lookup, h]
    | false => simp [List.lookup, h, ih]

theorem chooseElement_scrub (entries : List (String × DicomElement)) (t : String) :
    chooseElement (entries.map (fun p => (p.1, scrubElement p.2))) t =
      (chooseElement entries t).map scrubElement := by
  unfold chooseElement
  rw [lookup_scrub]
  cases entries.lookup t with
  | some e => rfl
  | none =>
    by_cases hx : (!t.startsWith ("x")) = true
    · simp [hx, lookup_scrub]
    · simp [hx]

theorem getTagValue_scrub (ds : Dataset) (t : String) :
    getTagValue (scrubDataset ds) t = getTagValue ds t := by
  cases ds with
  | none => rfl
  | some entries =>
    have h := chooseElement_scrub entries t
    simp only [scrubDataset, getTagValue, getTagValueE, h]
    cases chooseElement entries t with
    | none => rfl
    | some e =>
      cases e with
      | throwing => rfl
      | val v => cases v <;> rfl

theorem tryFormats_scrub (ds : Dataset) (l : List String) :
    tryFormats (scrubDataset ds) l = tryFormats ds l := by
  induction l with
  | nil => rfl
  | cons f rest ih => simp [tryFormats, getTagValue_scrub, ih]

/-- Claim C8: tag resolution never surfaces a lookup error. Resolving over a
dataset behaves exactly as if every throwing element were simply "not found"
(value `undefined`) for that spelling — the resolver proceeds to the other
spellings unharmed — and whenever the un-caught body of `getTagValue` would
raise, the caller just sees `''`. -/
theorem getTag_error_swallowed (ds : Dataset) (key t : String) :
    getTag ds key = getTag (scrubDataset ds) key ∧
    (getTagValueE ds t = Except.error () → getTagValue ds t = "") := by
  constructor
  · unfold getTag
    exact (tryFormats_scrub ds (tagFormats key)).symm
  · intro h
    unfold getTagValue
    rw [h]

/-- Dataset whose direct spelling of the modality tag raises on `.value`
access while the `'x'`-prefixed spelling resolves normally. -/
def throwingDemoDataset : Dataset :=
  some [("00080060", DicomElement.throwing),
        ("x00080060", DicomElement.val (JsVal.str "CT"))]

/-- Claim C8 witness: on `throwingDemoDataset` the raising spelling resolves
to `''` and the overall resolution is unaffected by the error. -/
theorem getTag_error_swallowed_witness :
    getTag throwingDemoDataset ("00080060") =
      getTag (scrubDataset throwingDemoDataset) ("00080060") ∧
    getTagValue throwingDemoDataset ("00080060") = "" :=
  ⟨(getTag_error_swallowed throwingDemoDataset ("00080060") ("00080060")).1,
   (getTag_error_swallowed throwingDemoDataset ("00080060") ("00080060")).2 (by rfl)⟩

/-- Claim C9: an element whose resolved value is an array is joined into a
single string with the backslash delimiter. -/
theorem array_values_joined (entries : List (String × DicomElement)) (tagName : String)
    (xs : List String)
    (h : entries.lookup tagName = some (DicomElement.val (JsVal.arr xs))) :
    getTagValue (some entries) tagName = String.intercalate ("\\") xs := by
  simp only [getTagValue, getTagValueE, chooseElement, h]

/-- Claim C9 witness: the element value `['CT', 'AXIAL']` resolves to the
string `'CT\AXIAL'`. -/
theorem array_values_joined_witness :
    getTagValue (some [("00080008", DicomElement.val (JsVal.arr ["CT", "AXIAL"]))])
      ("00080008") = "CT\\AXIAL" := by
  rw [array_values_joined ([("00080008", DicomElement.val (JsVal.arr ["CT", "AXIAL"]))])
    ("00080008") (["CT", "AXIAL"]) (by rfl)]
  rfl

/-- JavaScript `s.substring(a, b)` for in-range `a ≤ b ≤ s.length` (the only
way `formatDate` uses it): the characters at positions `[a, b)`. -/
def jsSubstring (s : String) (a b : Nat) : String :=
  String.mk ((s.toList.drop a).take (b - a))

/-- `formatDate` of `dicom-viewer.component.ts`: return the input unchanged
unless it is a (truthy) string of exactly 8 characters, in which case insert
dashes after positions 4 and 6 (`YYYYMMDD` to `YYYY-MM-DD`). -/
def formatDate (dateString : String) : String :=
  if dateString = "" ∨ dateString.length ≠ 8 then dateString
  else
    jsSubstring dateString 0 4 ++ "-" ++ jsSubstring dateString 4 6 ++ "-" ++
      jsSubstring dateString 6 8

/-- Claim C6: date normalization reformats exactly the strings of length 8 —
the result is then the first four characters, a dash, characters 4-5, a
dash, characters 6-7 — and returns every other string (including the empty
string) unchanged. -/
theorem formatDate_length_policy (s : String) :
    (s.length = 8 →
      (formatDate s).toList =
        s.toList.take 4 ++ ('-' :: ((s.toList.drop 4).take 2 ++
          ('-' :: (s.toList.drop 6).take 2)))) ∧
    (s.length ≠ 8 → formatDate s = s) := by
  constructor
  · intro h
    have hcond : ¬(s = "" ∨ s.length ≠ 8) := by
      rintro (rfl | hne)
      · exact absurd h (by decide)
      · exact hne h
    simp only [formatDate, if_neg hcond, jsSubstring]
    simp [String.data_append]
  · intro h
    have hcond : s = "" ∨ s.length ≠ 8 := Or.inr h
    simp only [formatDate, if_pos hcond]

/-- Claim C6 witness: `'20230115'` becomes `'2023-01-15'` and `'2023'`
(length 4) is returned unchanged. -/
theorem formatDate_length_policy_witness :
    (formatDate ("20230115")).toList =
      "20230115".toList.take 4 ++ ('-' :: (("20230115".toList.drop 4).take 2 ++
        ('-' :: ("20230115".toList.drop 6).take 2))) ∧
    formatDate ("2023") = "2023" ∧
    formatDate ("20230115") = "2023-01-15" :=
  ⟨(formatDate_length_policy ("20230115")).1 (by decide),
   (formatDate_length_policy ("2023")).2 (by decide),
   by rfl⟩

/-- The characters skipped at the front by JavaScript numeric parsing
(whitespace and line terminators, restricted to the ASCII ones). -/
def jsWhitespace (c : Char) : Bool :=
  c = ' ' || c = '\t' || c = '\n' || c = '\r' || c = '\x0b' || c = '\x0c'

/-- An optional leading sign: the resulting sign factor and the remaining
characters. -/
def stripSign : List Char → Int × List Char
  | '-' :: rest => (-1, rest)
  | '+' :: rest => (1, rest)
  | cs => (1, cs)

/-- Decimal value of a digit string. -/
def digitsToNat (ds : List Char) : Nat :=
  ds.foldl (fun acc c => 10 * acc + (c.toNat - '0'.toNat)) 0

/-- A radix-16 digit, as accepted after a `0x`/`0X` prefix. -/
def isHexDigitChar (c : Char) : Bool :=
  c.isDigit || ('a' ≤ c && c ≤ 'f') || ('A' ≤ c && c ≤ 'F')

/-- Value of one radix-16 digit. -/
def hexDigitVal (c : Char) : Nat :=
  if c.isDigit then c.toNat - '0'.toNat
  else if 'a' ≤ c && c ≤ 'f' then c.toNat - 'a'.toNat + 10
  else c.toNat - 'A'.toNat + 10

/-- Radix-16 value of a hex-digit string. -/
def hexToNat (ds : List Char) : Nat :=
  ds.foldl (fun acc c => 16 * acc + hexDigitVal c) 0

/-- The automatic radix-16 prefix taken by `parseInt` when called with no
explicit radix: `some rest` when the (whitespace- and sign-stripped) input
starts with `0x` or `0X`. -/
def hexPrefix : List Char → Option (List Char)
  | '0' :: 'x' :: t => some t
  | '0' :: 'X' :: t => some t
  | _ => none

/-- The digit run consumed by `parseInt` with no explicit radix: after
whitespace and sign, the longest radix-16 digit run following a `0x`/`0X`
prefix when there is one, the longest decimal digit run otherwise. -/
def intDigitsRun (s : String) : List Char :=
  match hexPrefix (stripSign (s.toList.dropWhile jsWhitespace)).2 with
  | some t => t.takeWhile isHexDigitChar
  | none => (stripSign (s.toList.dropWhile jsWhitespace)).2.takeWhile Char.isDigit

/-- The unsigned value of that digit run, in the matching radix. -/
def intRunValue (s : String) : Int :=
  match hexPrefix (stripSign (s.toList.dropWhile jsWhitespace)).2 with
  | some t => (hexToNat (t.takeWhile isHexDigitChar) : Int)
  | none => (digitsToNat ((stripSign (s.toList.dropWhile jsWhitespace)).2.takeWhile Char.isDigit) : Int)

/-- `true` when `parseInt` finds an empty digit run (no decimal digits, or
a `0x`/`0X` prefix with no radix-16 digits after it), i.e. when the input
cannot be parsed as an integer. `parseInt('0x')` is such an input. -/
def intUnparseable (s : String) : Bool :=
  (intDigitsRun s).isEmpty

/-- Modelled from JavaScript `parseInt(s)` with no explicit radix: skip
leading whitespace, read an optional sign; if the remainder starts with
`0x`/`0X`, strip that prefix and read the longest radix-16 digit run,
otherwise read the longest decimal digit run; an empty run gives `NaN`,
modelled as `none`. In particular `parseInt('0x')` and
`parseInt('Infinity')` are `NaN`. `parseInt` never raises. -/
def parseIntJs (s : String) : Option Int :=
  if intUnparseable s then none
  else some ((stripSign (s.toList.dropWhile jsWhitespace)).1 * intRunValue s)

/-- The fractional digits of a JavaScript decimal literal: the digits right
after the dot that follows the integer digits, `[]` when there is no dot. -/
def fracPart (rest : List Char) : List Char :=
  match rest.dropWhile Char.isDigit with
  | '.' :: t => t.takeWhile Char.isDigit
  | _ => []

/-- `true` when the (sign-stripped) input starts with the exact literal
`Infinity`, which `parseFloat` accepts as an infinite value. -/
def infinityPrefix : List Char → Bool
  | 'I' :: 'n' :: 'f' :: 'i' :: 'n' :: 'i' :: 't' :: 'y' :: _ => true
  | _ => false

/-- The characters following the mantissa (integer digits and the optional
dot plus fractional digits), where an exponent part may start. -/
def afterNumber (rest : List Char) : List Char :=
  match rest.dropWhile Char.isDigit with
  | '.' :: t => t.dropWhile Char.isDigit
  | other => other

/-- Exponent digits after `e`/`E` and an optional sign; an exponent with no
digits is not part of the longest parseable prefix, contributing `0`. -/
def expSigned (t : List Char) : Int :=
  match t with
  | '-' :: d =>
    if (d.takeWhile Char.isDigit).isEmpty then 0
    else -(digitsToNat (d.takeWhile Char.isDigit) : Int)
  | '+' :: d =>
    if (d.takeWhile Char.isDigit).isEmpty then 0
    else (digitsToNat (d.takeWhile Char.isDigit) : Int)
  | d =>
    if (d.takeWhile Char.isDigit).isEmpty then 0
    else (digitsToNat (d.takeWhile Char.isDigit) : Int)

/-- The exponent of a JavaScript decimal literal (`0` when absent). -/
def expPart (cs : List Char) : Int :=
  match cs with
  | 'e' :: t => expSigned t
  | 'E' :: t => expSigned t
  | _ => 0

/-- The result of JavaScript `parseFloat`: a finite value (kept as an exact
rational), a signed infinity, or `NaN`. -/
inductive JsFloat where
  | fin (q : ℚ)
  | inf (negative : Bool)
  | nan
deriving DecidableEq

/-- The exact value `sign * int.frac * 10^e` of a finite decimal literal
with `k` fractional digits, written as an integer quotient (idealising IEEE
rounding away). -/
def jsFloatVal (sign : Int) (intD fracD : List Char) (e : Int) : ℚ :=
  if 0 ≤ e then
    Rat.divInt
      (sign * ((digitsToNat intD : Int) * (10 : Int) ^ fracD.length + (digitsToNat fracD : Int)) *
        (10 : Int) ^ e.toNat)
      ((10 : Int) ^ fracD.length)
  else
    Rat.divInt
      (sign * ((digitsToNat intD : Int) * (10 : Int) ^ fracD.length + (digitsToNat fracD : Int)))
      ((10 : Int) ^ fracD.length * (10 : Int) ^ (-e).toNat)

/-- `true` when `parseFloat` finds neither the `Infinity` literal nor any
integer or fractional digits, i.e. when the input parses to `NaN`.
(`parseFloat('Infinity')` is an infinity, NOT `NaN`, so it is parseable.) -/
def floatUnparseable (s : String) : Bool :=
  !(infinityPrefix (stripSign (s.toList.dropWhile jsWhitespace)).2) &&
    (((stripSign (s.toList.dropWhile jsWhitespace)).2.takeWhile Char.isDigit).isEmpty &&
      (fracPart (stripSign (s.toList.dropWhile jsWhitespace)).2).isEmpty)

/-- Modelled from JavaScript `parseFloat(s)`: skip leading whitespace, read
an optional sign; the literal `Infinity` gives a signed infinity; otherwise
read integer digits, optional fractional digits and an optional exponent,
counting only the longest valid prefix (`parseFloat('1e2.5')` is `100`,
`parseFloat('0x5')` is `0`); the result is `NaN` exactly when there is no
`Infinity` literal and both digit groups are empty. (Once the `Infinity`
branch is not taken, the `!Infinity` conjunct of `floatUnparseable` is
vacuously true, so the second branch tests exactly the two digit groups.)
`parseFloat` never raises. -/
def parseFloatJs (s : String) : JsFloat :=
  if infinityPrefix (stripSign (s.toList.dropWhile jsWhitespace)).2 then
    JsFloat.inf ((stripSign (s.toList.dropWhile jsWhitespace)).1 < 0)
  else if floatUnparseable s then
    JsFloat.nan
  else
    JsFloat.fin (jsFloatVal (stripSign (s.toList.dropWhile jsWhitespace)).1
      ((stripSign (s.toList.dropWhile jsWhitespace)).2.takeWhile Char.isDigit)
      (fracPart (stripSign (s.toList.dropWhile jsWhitespace)).2)
      (expPart (afterNumber (stripSign (s.toList.dropWhile jsWhitespace)).2)))

/-- The integer-field normalisation `parseInt(raw || '0')` used for rows
and columns (`extractDicomMetadata` and `parseMetadataFromFile`): the falsy
empty string falls back to the literal `'0'`. -/
def normalizeIntField (raw : String) : Option Int :=
  parseIntJs (if raw = "" then "0" else raw)

/-- The float-field normalisation `parseFloat(raw || '0')` used for
windowCenter and windowWidth in `parseMetadataFromFile`. -/
def normalizeFloatField (raw : String) : JsFloat :=
  parseFloatJs (if raw = "" then "0" else raw)

theorem parseIntJs_eq_none_iff (s : String) :
    parseIntJs s = none ↔ intUnparseable s = true := by
  unfold parseIntJs
  split
  next h => exact iff_of_true rfl h
  next h => exact iff_of_false (by simp) h

theorem parseFloatJs_eq_nan_iff (s : String) :
    parseFloatJs s = JsFloat.nan ↔ floatUnparseable s = true := by
  unfold parseFloatJs
  split
  next hinf =>
    refine iff_of_false (by simp) ?_
    intro hc
    unfold floatUnparseable at hc
    rw [hinf] at hc
    simp at hc
  next hinf =>
    split
    next h => exact iff_of_true rfl h
    next h => exact iff_of_false (by simp) h

/-- Claim C5 counterexample: a non-empty input with no parseable numeric
prefix does NOT normalize to `0`: both `parseInt('abc')` and
`parseFloat('abc')` are `NaN`, not `0`. -/
theorem numeric_default_not_zero_on_unparseable :
    normalizeIntField ("abc") = none ∧ (none : Option Int) ≠ some 0 ∧
    normalizeFloatField ("abc") = JsFloat.nan ∧ JsFloat.nan ≠ JsFloat.fin 0 :=
  ⟨rfl, by decide, rfl, by decide⟩

/-- Claim C5 (amended): numeric normalisation never raises and yields `0`
for the empty input (via the `|| '0'` fallback); but a NON-empty input that
cannot be parsed yields `NaN` — not `0`: the result is `NaN` exactly when
the input is non-empty and cannot be parsed (for `parseInt`: no decimal
digit run, or a `0x`/`0X` prefix with no radix-16 digits after it; for
`parseFloat`: no `Infinity` literal and no integer or fractional digits). -/
theorem numeric_default_policy (raw : String) :
    (raw = "" → normalizeIntField raw = some 0 ∧ normalizeFloatField raw = JsFloat.fin 0) ∧
    (raw ≠ "" →
      ((normalizeIntField raw = none ↔ intUnparseable raw = true) ∧
       (normalizeFloatField raw = JsFloat.nan ↔ floatUnparseable raw = true))) := by
  constructor
  · rintro rfl
    exact ⟨rfl, by decide⟩
  · intro h
    unfold normalizeIntField normalizeFloatField
    rw [if_neg h]
    exact ⟨parseIntJs_eq_none_iff raw, parseFloatJs_eq_nan_iff raw⟩

/-- Claim C5 witness: the empty string normalizes to `0`; on the concrete
unparseable inputs `'abc'` and `'0x'` the NaN characterisation holds, and
on `'Infinity'` (which parses to an infinity, not `NaN`) both sides of the
characterisation are false. The last three conjuncts evaluate the parsers
on inputs exercising the `Infinity`, radix-16 and exponent paths. -/
theorem numeric_default_policy_witness :
    ((normalizeIntField ("") = some 0 ∧ normalizeFloatField ("") = JsFloat.fin 0) ∧
     ((normalizeIntField ("abc") = none ↔ intUnparseable ("abc") = true) ∧
      (normalizeFloatField ("abc") = JsFloat.nan ↔ floatUnparseable ("abc") = true)) ∧
     (normalizeIntField ("0x") = none ↔ intUnparseable ("0x") = true) ∧
     (normalizeFloatField ("Infinity") = JsFloat.nan ↔ floatUnparseable ("Infinity") = true)) ∧
    normalizeFloatField ("Infinity") = JsFloat.inf false ∧
    parseIntJs ("0xF") = some 15 ∧
    parseFloatJs ("-1.5e2") = JsFloat.fin (-150) :=
  ⟨⟨(numeric_default_policy ("")).1 rfl,
    (numeric_default_policy ("abc")).2 (by decide),
    ((numeric_default_policy ("0x")).2 (by decide)).1,
    ((numeric_default_policy ("Infinity")).2 (by decide)).2⟩,
   by decide, by decide, by decide⟩

/-- The two asynchronous operations started by `ngOnChanges` for a newly
selected image. -/
inductive AsyncOp where
  | baselineFetch
  | binaryExtraction
deriving DecidableEq, Fintype

/-- How an operation is scheduled: started immediately, started after a
fixed timer delay (`setTimeout`), or chained on the completion of another
operation (a promise/observable continuation). -/
inductive ScheduledAction where
  | immediate (op : AsyncOp)
  | delayed (ms : Nat) (op : AsyncOp)
  | onCompletion (dep : AsyncOp) (op : AsyncOp)
deriving DecidableEq

/-- The scheduling performed by the `changes['selectedImage']` branch of
`ngOnChanges`: `this.fetchMetadataFromApi()` is called synchronously, and
the binary load/extraction is handed to `setTimeout(..., 200)` — a fixed
200 ms timer, not a continuation of the fetch. -/
def ngOnChangesSchedule : List ScheduledAction :=
  [ScheduledAction.immediate AsyncOp.baselineFetch,
   ScheduledAction.delayed 200 AsyncOp.binaryExtraction]

/-- Time (ms after `ngOnChanges`) at which binary extraction starts: the
fixed `setTimeout` delay of 200 ms. -/
def extractionStartTime : Nat := 200

/-- Time (ms after `ngOnChanges`) at which the baseline API fetch delivers
its result, as a function of the network/API latency. -/
def baselineFetchCompleteTime (apiLatencyMs : Nat) : Nat := apiLatencyMs

/-- Claim C3 counterexample: `ngOnChanges` does NOT schedule the binary
extraction as a sequential dependency of the baseline fetch — no
completion-chained action is in its schedule — and with an API latency of
300 ms the fetch has not completed when extraction starts. -/
theorem extraction_not_dependency_scheduled :
    ScheduledAction.onCompletion AsyncOp.baselineFetch AsyncOp.binaryExtraction ∉
      ngOnChangesSchedule ∧
    ¬ baselineFetchCompleteTime 300 ≤ extractionStartTime := by
  decide

/-- Claim C3 (amended): the binary extraction is started after a fixed
200 ms timer delay, so the baseline result is in hand when extraction
begins exactly when the API latency is at most 200 ms — the ordering is a
timing hope, not a sequencing guarantee. -/
theorem extraction_after_fixed_delay :
    ScheduledAction.delayed 200 AsyncOp.binaryExtraction ∈ ngOnChangesSchedule ∧
    (∀ apiLatencyMs : Nat,
      baselineFetchCompleteTime apiLatencyMs ≤ extractionStartTime ↔ apiLatencyMs ≤ 200) := by
  constructor
  · decide
  · intro apiLatencyMs
    exact Iff.rfl

/-- Key normalisation of the API response handler:
`normalizedResponse[key.toLowerCase()] = response[key]` for every key. -/
def normalizeResponse (entries : List (String × JsVal)) : List (String × JsVal) :=
  entries.map (fun p => (strToLower p.1, p.2))

/-- Property read on the normalised response object: since the handler
builds the object by successive assignments, a later entry with the same
key overwrites an earlier one, so a read returns the last occurrence. -/
def objLookup (entries : List (String × JsVal)) (k : String) : Option JsVal :=
  entries.reverse.lookup k

/-- The `fieldsToCheck` table of `fetchMetadataFromApi`: for each target
field of the record, the API key spellings tried in order. -/
def fieldsToCheck : List (FieldName × List String) :=
  [(FieldName.patientName, ["patientname", "patient_name", "name"]),
   (FieldName.patientId, ["patientid", "patient_id", "id"]),
   (FieldName.patientBirthDate, ["patientbirthdate", "patient_birth_date", "birthdate", "birth_date"]),
   (FieldName.patientSex, ["patientsex", "patient_sex", "sex", "gender"]),
   (FieldName.modality, ["modality"]),
   (FieldName.rows, ["rows"]),
   (FieldName.columns, ["columns", "cols"]),
   (FieldName.imageType, ["imagetype", "image_type", "type"]),
   (FieldName.studyId, ["studyid", "study_id"]),
   (FieldName.studyInstanceUid, ["studyinstanceuid", "study_instance_uid"]),
   (FieldName.studyDate, ["studydate", "study_date"]),
   (FieldName.studyTime, ["studytime", "study_time"]),
   (FieldName.seriesInstanceUid, ["seriesinstanceuid", "series_instance_uid"]),
   (FieldName.seriesNumber, ["seriesnumber", "series_number"]),
   (FieldName.seriesDescription, ["seriesdescription", "series_description"]),
   (FieldName.bodyPart, ["bodypart", "body_part"]),
   (FieldName.instanceNumber, ["instancenumber", "instance_number"]),
   (FieldName.windowCenter, ["windowcenter", "window_center"]),
   (FieldName.windowWidth, ["windowwidth", "window_width"])]

/-- The inner `for (const apiKey of field.apiKeys)` loop: the first key
whose value is present and not `undefined`/`null`/`''` wins (`break`);
otherwise the field is left alone. -/
def firstApiHit (norm : List (String × JsVal)) : List String → Option JsVal
  | [] => none
  | k :: rest =>
    match objLookup norm k with
    | none => firstApiHit norm rest
    | some v =>
      if v = JsVal.undef ∨ v = JsVal.jsNull ∨ v = JsVal.str "" then firstApiHit norm rest
      else some v

/-- The `next:` handler of the subscription in `fetchMetadataFromApi`,
applied to the metadata record current WHEN THE RESPONSE ARRIVES: early
exit on a falsy or empty response, otherwise normalise the keys and fill
each target field from the first matching API key. The handler never
consults which image the request was issued for. -/
def applyApiResponse (md : DicomMetadata) (resp : Option (List (String × JsVal))) :
    DicomMetadata :=
  match resp with
  | none => md
  | some entries =>
    if entries.isEmpty then md
    else
      fieldsToCheck.foldl (fun acc fld =>
        match firstApiHit (normalizeResponse entries) fld.2 with
        | some v => acc.set fld.1 v
        | none => acc) md

/-- The metadata-relevant component state: the currently selected image id
and the current `dicomMetadata` record. (`ngOnChanges` nulls the record and
`fetchMetadataFromApi` synchronously re-initialises it to the empty record,
so right after a selection change the record is `emptyMetadata`.) -/
structure ViewerState where
  selectedImage : Int
  dicomMetadata : DicomMetadata
deriving DecidableEq

/-- The asynchronous events of a viewing session: the user selects an
image, a baseline API response arrives for the session that requested it,
or a binary extraction result arrives for the session that started it. -/
inductive ViewerEvent where
  | selectImage (img : Int)
  | apiResponse (forImg : Int) (resp : Option (List (String × JsVal)))
  | extractionResult (forImg : Int) (extracted : DicomMetadata)

/-- The component's reaction to each event, read off `ngOnChanges`, the
subscription handler of `fetchMetadataFromApi`, and the merge step of
`extractDicomMetadata`. Neither response handler compares `forImg` with the
currently selected image — there is no stale-response guard in the code. -/
def step (st : ViewerState) (e : ViewerEvent) : ViewerState :=
  match e with
  | ViewerEvent.selectImage img =>
    { selectedImage := img, dicomMetadata := emptyMetadata }
  | ViewerEvent.apiResponse _ resp =>
    { st with dicomMetadata := applyApiResponse st.dicomMetadata resp }
  | ViewerEvent.extractionResult _ extracted =>
    { st with dicomMetadata := mergeMetadata st.dicomMetadata extracted }

/-- The state after the user selected image 1 and then switched to image 2,
with session 1's responses still outstanding. -/
def staleDemoState : ViewerState :=
  step (step { selectedImage := 0, dicomMetadata := emptyMetadata }
    (ViewerEvent.selectImage 1)) (ViewerEvent.selectImage 2)

/-- Session 1's baseline response, arriving after the switch to image 2. -/
def staleDemoResponse : Option (List (String × JsVal)) :=
  some [("patientname", JsVal.str "Jane Doe")]

/-- Claim C4 counterexample: session 1's late baseline response is NOT
discarded after the switch to image 2: it is applied to the current
(image 2) session's metadata, writing `patientName = 'Jane Doe'` into it. -/
theorem stale_response_applied :
    staleDemoState.selectedImage = 2 ∧
    (step staleDemoState (ViewerEvent.apiResponse 1 staleDemoResponse)).dicomMetadata.get
      FieldName.patientName = JsVal.str "Jane Doe" ∧
    step staleDemoState (ViewerEvent.apiResponse 1 staleDemoResponse) ≠ staleDemoState := by
  decide

/-- Claim C4 (amended): there is no stale-response guard keyed by image
identity: a baseline response or an extraction result arriving for ANY
originating image is applied to the current session's state exactly as a
response for the currently selected image would be. -/
theorem response_applied_regardless_of_origin (st : ViewerState) (forImg : Int)
    (resp : Option (List (String × JsVal))) (extracted : DicomMetadata) :
    step st (ViewerEvent.apiResponse forImg resp) =
      step st (ViewerEvent.apiResponse st.selectedImage resp) ∧
    step st (ViewerEvent.extractionResult forImg extracted) =
      step st (ViewerEvent.extractionResult st.selectedImage extracted) :=
  ⟨rfl, rfl⟩
